import Mathlib

/-!
# Verification of the Andor camera wrapper (`evora/andor_wrapper.cpp`)

Shallow embedding of the wrapper module: the image reshaping helper
`reshapeImageData`, the dictionary-building bindings (`getStatus`,
`getDetector`, `getAcquiredData`, ...) and the directly bound vendor calls
(`startAcquisition`, `setTargetTEC`, ...), followed by the properties proved
about them.

Conventions of the embedding:
* a C `int` is an `Int`; the result of an `int` multiplication is reduced to
  the 32-bit two's-complement range by `wrapInt`;
* an `at_32` sample is an `Int` (samples are only copied, never computed with);
* a C `float` is its IEEE-754 bit pattern (`CFloat`); floats are only copied;
* an array access outside the array, a write outside a vector and a C++
  exception are the `none` branch of an `Option`;
* the vendor SDK is an environment `Env` answering each call; the calls made
  are recorded in a log (`List VendorCall`), oldest first.
-/

namespace Evora

/-! ## Machine integers and memory accesses -/

/-- Largest value of a 32-bit C `int`. -/
def INT_MAX : Int := 2147483647

/-- Smallest value of a 32-bit C `int`. -/
def INT_MIN : Int := -2147483648

/-- Value held by a 32-bit C `int` after computing the mathematical result `x`
(two's-complement reduction modulo `2^32`). -/
def wrapInt (x : Int) : Int := (x + 2147483648) % 4294967296 - 2147483648

/-- Read `imageData[i]`: defined only when `i` addresses an existing sample. -/
def readAt (imageData : List Int) (i : Int) : Option Int :=
  if 0 ≤ i then imageData[i.toNat]? else none

/-- Assignment `out[row][col] = v` on a vector of vectors: defined only when the
row and the column exist. -/
def writeAt (out : List (List Int)) (row col : Nat) (v : Int) : Option (List (List Int)) :=
  match out[row]? with
  | none => none
  | some r => if col < r.length then some (out.set row (r.set col v)) else none

/-! ## `reshapeImageData` (lines 11-23) -/

/-- The index expression `row * col` of line 18, an `int` product. -/
def flatIndex (row col : Nat) : Int := wrapInt ((row : Int) * (col : Int))

/-- First loop of `reshapeImageData`: `imageHeight` times
`out.push_back(std::vector<at_32>(imageWidth))`. A vector built with a count is
value-initialised (all zeros); a negative count is rejected by the allocation. -/
def allocRows (imageWidth imageHeight : Int) : Option (List (List Int)) :=
  if 0 < imageHeight ∧ imageWidth < 0 then none
  else some (List.replicate imageHeight.toNat (List.replicate imageWidth.toNat 0))

/-- A counted loop `for (i = start; i < start + n; i++) body`, on a state that
an iteration may fail to produce (`none`: the iteration has no defined result);
`n` is the number of iterations left, `i` the current value of the counter. -/
def forLoop {σ : Type} (body : Nat → σ → Option σ) : Nat → Nat → σ → Option σ
  | 0, _, s => some s
  | n + 1, i, s =>
    match body i s with
    | none => none
    | some s1 => forLoop body n (i + 1) s1

/-- Inner loop (lines 17-19):
`for (col = 0; col < imageWidth; col++) out[row][col] = imageData[row * col]`. -/
def fillRow (imageData : List Int) (imageWidth : Int) (row : Nat) (out : List (List Int)) :
    Option (List (List Int)) :=
  forLoop (fun col out =>
    match readAt imageData (flatIndex row col) with
    | none => none
    | some v => writeAt out row col v) imageWidth.toNat 0 out

/-- Outer loop (lines 16-20): `for (row = 0; row < imageHeight; row++)` around
the inner loop. -/
def fillRows (imageData : List Int) (imageWidth imageHeight : Int) (out : List (List Int)) :
    Option (List (List Int)) :=
  forLoop (fun row out => fillRow imageData imageWidth row out) imageHeight.toNat 0 out

/-- The helper `reshapeImageData(imageData, imageWidth, imageHeight)`. -/
def reshapeImageData (imageData : List Int) (imageWidth imageHeight : Int) : Option (List (List Int)) :=
  match allocRows imageWidth imageHeight with
  | none => none
  | some out => fillRows imageData imageWidth imageHeight out

/-- Row-major frame of the specification: `frame[r][c] = buffer[r*W + c]`
(follows the words of the specification, for comparison with `reshapeImageData`). -/
def rowMajorFrame (buffer : List Int) (W H : Nat) : List (List Int) :=
  (List.range H).map fun r => (List.range W).map fun c => buffer.getD (r * W + c) 0

/-! ## Python values handed back to the caller -/

/-- A C `float`, kept as its IEEE-754 single-precision bit pattern. -/
structure CFloat where
  bits : Nat
  deriving DecidableEq, Repr

/-- The literal `-1` stored in a `float`. -/
def CFloat.minusOne : CFloat := ⟨0xBF800000⟩

/-- The literal `-999.0` stored in a `float`. -/
def CFloat.minus999 : CFloat := ⟨0xC479C000⟩

/-- Python objects built by the bindings. -/
inductive PyVal
  | int (v : Int)
  | float (v : CFloat)
  | tuple (items : List Int)
  | array (rows : List (List Int))
  deriving DecidableEq, Repr

/-- A `py::dict` with string keys, in insertion order. -/
abbrev PyDict := List (String × PyVal)

/-- Item assignment `d[key] = v`: replaces the value of an existing key, otherwise
adds the key. -/
def PyDict.setItem : PyDict → String → PyVal → PyDict
  | [], key, v => [(key, v)]
  | (k, w) :: rest, key, v =>
    if k = key then (k, v) :: rest else (k, w) :: PyDict.setItem rest key v

/-- Lookup `d[key]`, when the key is present. -/
def PyDict.getItem (d : PyDict) (key : String) : Option PyVal :=
  (d.find? fun kv => kv.1 = key).map Prod.snd

/-- Conversion `.cast<int>()` of a Python integer: fails outside the range of `int`. -/
def castInt (x : Int) : Option Int :=
  if INT_MIN ≤ x ∧ x ≤ INT_MAX then some x else none

/-! ## The vendor SDK as an environment -/

/-- The vendor functions the module calls. -/
inductive VendorFn
  | Initialize | SetReadMode | ShutDown | SetAcquisitionMode | SetExposureTime
  | GetAcquisitionTimings | GetStatus | GetDetector | SetShutter | SetImage
  | StartAcquisition | WaitForAcquisition | AbortAcquisition | GetAcquiredData
  | CoolerON | CoolerOFF | SetTemperature | GetTemperatureF | GetTemperatureRange
  | SetFanMode | SetNumberKinetics | SetKineticCycleTime
  deriving DecidableEq, Repr

/-- A value passed by value to a vendor function. -/
inductive CVal
  | int (v : Int)
  | float (v : CFloat)
  | str (v : String)
  deriving DecidableEq, Repr

/-- One call of a vendor function, with its by-value arguments (pointer
arguments are outputs and are not recorded). -/
structure VendorCall where
  fn : VendorFn
  args : List CVal
  deriving DecidableEq, Repr

/-- What the world outside the module does. The vendor header is not part of
the sources, so the SDK is taken as a parameter: every call returns some raw
status code and may store values through its pointer arguments. -/
structure Env where
  /-- Raw status code the call returns, given the calls made before it (the
  integer the binding receives in its `int status`, or returns to Python). -/
  status : List VendorCall → VendorCall → Int
  /-- Integer the call stores through its `i`-th output slot (the `i`-th pointer
  argument, or element `i` of the array argument), if it stores one. -/
  outInt : List VendorCall → VendorCall → Nat → Option Int
  /-- Float the call stores through its `i`-th output slot, if it stores one. -/
  outFloat : List VendorCall → VendorCall → Nat → Option CFloat
  /-- Indeterminate content of storage that the module leaves uninitialised
  (slot `i` of the storage obtained after the given calls). -/
  indeterminate : List VendorCall → Nat → Int

/-- What an exposed operation returns to Python: the status code itself (directly
bound vendor functions) or a dictionary. -/
inductive PyRet
  | int (v : Int)
  | dict (d : PyDict)
  deriving DecidableEq, Repr

/-- Result of one exposed operation: the Python value returned (`none` when the
call raises or its behaviour is undefined) and the log of vendor calls. -/
abbrev Outcome := Option PyRet × List VendorCall

/-- A binding of the form `m.def(name, &VendorFunction, ...)`: the arguments are
forwarded unchanged, the status code is returned unchanged. -/
def callDirect (env : Env) (log : List VendorCall) (fn : VendorFn) (args : List CVal) : Outcome :=
  (some (PyRet.int (env.status log ⟨fn, args⟩)), log ++ [⟨fn, args⟩])

/-! ## The exposed operations -/

/-- The binding `initialize`, i.e. `InitializeWrapper` (lines 26-29). -/
def InitializeWrapper (env : Env) (log : List VendorCall) (andor_dir : String) : Outcome :=
  callDirect env log VendorFn.Initialize [CVal.str andor_dir]

/-- The binding `getAcquisitionTimings` (lines 40-56). -/
def getAcquisitionTimings (env : Env) (log : List VendorCall) : Outcome :=
  let call : VendorCall := ⟨VendorFn.GetAcquisitionTimings, []⟩
  let exposure := (env.outFloat log call 0).getD CFloat.minusOne
  let accumulate := (env.outFloat log call 1).getD CFloat.minusOne
  let kinetic := (env.outFloat log call 2).getD CFloat.minusOne
  let status := env.status log call
  let out : PyDict := []
  let out := out.setItem "exposure" (PyVal.float exposure)
  let out := out.setItem "accumulate" (PyVal.float accumulate)
  let out := out.setItem "kinetic" (PyVal.float kinetic)
  let out := out.setItem "status" (PyVal.int status)
  (some (PyRet.dict out), log ++ [call])

/-- The binding `getStatus` (lines 57-66); the local `status` is not initialised. -/
def getStatus (env : Env) (log : List VendorCall) : Outcome :=
  let call : VendorCall := ⟨VendorFn.GetStatus, []⟩
  let status := (env.outInt log call 0).getD (env.indeterminate log 0)
  let funcStatus := env.status log call
  let out : PyDict := []
  let out := out.setItem "status" (PyVal.int status)
  let out := out.setItem "funcstatus" (PyVal.int funcStatus)
  (some (PyRet.dict out), log ++ [call])

/-- The binding `getDetector` (lines 68-80). -/
def getDetector (env : Env) (log : List VendorCall) : Outcome :=
  let call : VendorCall := ⟨VendorFn.GetDetector, []⟩
  let imageWidth := (env.outInt log call 0).getD (-1)
  let imageHeight := (env.outInt log call 1).getD (-1)
  let status := env.status log call
  let dim := PyVal.tuple [imageWidth, imageHeight]
  let out : PyDict := []
  let out := out.setItem "dimensions" dim
  let out := out.setItem "status" (PyVal.int status)
  (some (PyRet.dict out), log ++ [call])

/-- Content of the array after `new at_32[n]` followed by the vendor call
`GetAcquiredData(imageDataArray, n)`: `new` leaves the elements uninitialised,
the call overwrites those it stores a sample into. -/
def readoutBuffer (env : Env) (log : List VendorCall) (call : VendorCall) (n : Nat) : List Int :=
  (List.range n).map fun i => (env.outInt log call i).getD (env.indeterminate log i)

/-- The binding `getAcquiredData` (lines 87-105). `dim` is the Python tuple. -/
def getAcquiredData (env : Env) (log : List VendorCall) (dim : List Int) : Outcome :=
  match dim[0]?.bind castInt, dim[1]?.bind castInt with
  | some imageWidth, some imageHeight =>
    let n := wrapInt (imageWidth * imageHeight)
    if n < 0 then (none, log)
    else
      let call : VendorCall := ⟨VendorFn.GetAcquiredData, [CVal.int n]⟩
      let imageDataArray := readoutBuffer env log call n.toNat
      let status := env.status log call
      match reshapeImageData imageDataArray imageWidth imageHeight with
      | none => (none, log ++ [call])
      | some imageDataMatrix =>
        let out : PyDict := []
        let out := out.setItem "data" (PyVal.array imageDataMatrix)
        let out := out.setItem "status" (PyVal.int status)
        (some (PyRet.dict out), log ++ [call])
  | _, _ => (none, log)

/-- The binding `getStatusTEC` (lines 110-122). -/
def getStatusTEC (env : Env) (log : List VendorCall) : Outcome :=
  let call : VendorCall := ⟨VendorFn.GetTemperatureF, []⟩
  let temperature := (env.outFloat log call 0).getD CFloat.minus999
  let status := env.status log call
  let out : PyDict := []
  let out := out.setItem "temperature" (PyVal.float temperature)
  let out := out.setItem "status" (PyVal.int status)
  (some (PyRet.dict out), log ++ [call])

/-- The binding `getRangeTEC` (lines 124-138). -/
def getRangeTEC (env : Env) (log : List VendorCall) : Outcome :=
  let call : VendorCall := ⟨VendorFn.GetTemperatureRange, []⟩
  let min := (env.outInt log call 0).getD (-999)
  let max := (env.outInt log call 1).getD (-999)
  let status := env.status log call
  let out : PyDict := []
  let out := out.setItem "min" (PyVal.int min)
  let out := out.setItem "max" (PyVal.int max)
  let out := out.setItem "status" (PyVal.int status)
  (some (PyRet.dict out), log ++ [call])

/-- The binding `startAcquisition` (line 84): the vendor `StartAcquisition` itself. -/
def startAcquisition (env : Env) (log : List VendorCall) : Outcome :=
  callDirect env log VendorFn.StartAcquisition []

/-- The binding `waitForAcquisition` (line 85). -/
def waitForAcquisition (env : Env) (log : List VendorCall) : Outcome :=
  callDirect env log VendorFn.WaitForAcquisition []

/-- The binding `abortAcquisition` (line 86). -/
def abortAcquisition (env : Env) (log : List VendorCall) : Outcome :=
  callDirect env log VendorFn.AbortAcquisition []

/-- The binding `coolerOn` (line 107). -/
def coolerOn (env : Env) (log : List VendorCall) : Outcome :=
  callDirect env log VendorFn.CoolerON []

/-- The binding `coolerOff` (line 108). -/
def coolerOff (env : Env) (log : List VendorCall) : Outcome :=
  callDirect env log VendorFn.CoolerOFF []

/-- The binding `setTargetTEC` (line 109): the vendor `SetTemperature` itself,
called with the C `int` value `temperature`. -/
def setTargetTEC (env : Env) (log : List VendorCall) (temperature : Int) : Outcome :=
  callDirect env log VendorFn.SetTemperature [CVal.int temperature]

/-- The binding `shutdown` (line 37). -/
def shutdown (env : Env) (log : List VendorCall) : Outcome :=
  callDirect env log VendorFn.ShutDown []

/-- The remaining setters (`setReadMode`, `setAcquisitionMode`, `setExposureTime`,
`setShutter`, `setImage`, `setFanMode`, `setNumberKinetics`,
`setKineticCycleTime`) are bound to a vendor function each. -/
inductive Setter
  | setReadMode | setAcquisitionMode | setExposureTime | setShutter | setImage
  | setFanMode | setNumberKinetics | setKineticCycleTime
  deriving DecidableEq, Repr

/-- Vendor function a setter is bound to (lines 36-39, 82-83, 139-141). -/
def Setter.target : Setter → VendorFn
  | .setReadMode => VendorFn.SetReadMode
  | .setAcquisitionMode => VendorFn.SetAcquisitionMode
  | .setExposureTime => VendorFn.SetExposureTime
  | .setShutter => VendorFn.SetShutter
  | .setImage => VendorFn.SetImage
  | .setFanMode => VendorFn.SetFanMode
  | .setNumberKinetics => VendorFn.SetNumberKinetics
  | .setKineticCycleTime => VendorFn.SetKineticCycleTime

/-- One call of an exposed operation of the module, with its arguments. -/
inductive Op
  | initializeWrapper (andor_dir : String)
  | shutdown
  | setter (which : Setter) (args : List CVal)
  | getAcquisitionTimings
  | getStatus
  | getDetector
  | startAcquisition
  | waitForAcquisition
  | abortAcquisition
  | getAcquiredData (dim : List Int)
  | coolerOn
  | coolerOff
  | setTargetTEC (temperature : Int)
  | getStatusTEC
  | getRangeTEC
  deriving DecidableEq, Repr

/-- Perform one exposed operation. -/
def step (env : Env) (log : List VendorCall) : Op → Outcome
  | .initializeWrapper andor_dir => InitializeWrapper env log andor_dir
  | .shutdown => shutdown env log
  | .setter which args => callDirect env log which.target args
  | .getAcquisitionTimings => getAcquisitionTimings env log
  | .getStatus => getStatus env log
  | .getDetector => getDetector env log
  | .startAcquisition => startAcquisition env log
  | .waitForAcquisition => waitForAcquisition env log
  | .abortAcquisition => abortAcquisition env log
  | .getAcquiredData dim => getAcquiredData env log dim
  | .coolerOn => coolerOn env log
  | .coolerOff => coolerOff env log
  | .setTargetTEC temperature => setTargetTEC env log temperature
  | .getStatusTEC => getStatusTEC env log
  | .getRangeTEC => getRangeTEC env log

/-- Perform a sequence of exposed operations; returns the values handed back,
in order, and the final log of vendor calls. -/
def run (env : Env) : List VendorCall → List Op → List (Option PyRet) × List VendorCall
  | log, [] => ([], log)
  | log, op :: rest =>
    let r := step env log op
    let rs := run env r.2 rest
    (r.1 :: rs.1, rs.2)

/-- Number of hardware start commands in a log. -/
def startCount (log : List VendorCall) : Nat :=
  (log.filter fun c => c.fn = VendorFn.StartAcquisition).length

/-- Whether a log contains no two hardware starts without a readout
(`GetAcquiredData`) or an abort (`AbortAcquisition`) between them; `started`
tells whether a start is pending at the head of the log. -/
def noDoubleStart : Bool → List VendorCall → Bool
  | _, [] => true
  | started, c :: rest =>
    if c.fn = VendorFn.StartAcquisition then
      if started then false else noDoubleStart true rest
    else if c.fn = VendorFn.GetAcquiredData ∨ c.fn = VendorFn.AbortAcquisition then
      noDoubleStart false rest
    else noDoubleStart started rest

/-! ## Observations and sample environments -/

/-- Whether the value handed back by an operation is a dictionary with a `"data"` entry. -/
def hasData : Option PyRet → Bool
  | some (PyRet.dict d) => (d.getItem "data").isSome
  | _ => false

/-- An SDK that answers every call with the status `code`, stores nothing through
its pointer arguments, and a memory whose uninitialised cells all hold `junk`. -/
def quietEnv (code junk : Int) : Env :=
  ⟨fun _ _ => code, fun _ _ _ => none, fun _ _ _ => none, fun _ _ => junk⟩

/-- An SDK whose cooler reports the temperature range `[-100, 20]` and that
answers every call with the status 20002. -/
def tecEnv : Env :=
  ⟨fun _ _ => 20002,
   fun _ call i =>
     if call.fn = VendorFn.GetTemperatureRange then
       (if i = 0 then some (-100) else if i = 1 then some 20 else none)
     else none,
   fun _ _ _ => none,
   fun _ _ => 0⟩

/-! ## Lemmas on the loops of `reshapeImageData` -/

theorem writeAt_eq_some (out : List (List Int)) (row col : Nat) (v : Int) (r0 : List Int)
    (hrow : out[row]? = some r0) (hcol : col < r0.length) :
    writeAt out row col v = some (out.set row (r0.set col v)) := by
  simp [writeAt, hrow, hcol]

/-- A loop one of whose iterations always fails has no result. -/
theorem forLoop_none {σ : Type} (body : Nat → σ → Option σ) :
    ∀ (n start : Nat) (s : σ),
      (∃ i, start ≤ i ∧ i < start + n ∧ ∀ t, body i t = none) →
      forLoop body n start s = none := by
  intro n
  induction n with
  | zero =>
    intro start s ⟨i, h1, h2, _⟩
    omega
  | succ n ih =>
    intro start s ⟨i, h1, h2, h3⟩
    rw [forLoop]
    cases hb : body start s with
    | none => rfl
    | some s1 =>
      show forLoop body n (start + 1) s1 = none
      apply ih
      refine ⟨i, ?_, by omega, h3⟩
      rcases Nat.eq_or_lt_of_le h1 with h | h
      · subst h
        rw [h3 s] at hb
        cases hb
      · omega

/-- Invariant rule for a counted loop. -/
theorem forLoop_inv {σ : Type} (body : Nat → σ → Option σ) (Inv : Nat → σ → Prop) :
    ∀ (n start : Nat) (s : σ), Inv start s →
      (∀ i t, start ≤ i → i < start + n → Inv i t → ∃ t1, body i t = some t1 ∧ Inv (i + 1) t1) →
      ∃ s1, forLoop body n start s = some s1 ∧ Inv (start + n) s1 := by
  intro n
  induction n with
  | zero =>
    intro start s h0 _
    exact ⟨s, rfl, h0⟩
  | succ n ih =>
    intro start s h0 hstep
    obtain ⟨t1, hb, hinv⟩ := hstep start s (le_refl _) (by omega) h0
    obtain ⟨s1, hs1, hfin⟩ := ih (start + 1) t1 hinv
      (fun i t hi1 hi2 hi => hstep i t (by omega) (by omega) hi)
    refine ⟨s1, ?_, ?_⟩
    · rw [forLoop, hb]
      exact hs1
    · have e : start + (n + 1) = start + 1 + n := by omega
      rw [e]
      exact hfin

theorem fillRow_none (imageData : List Int) (imageWidth : Int) (row c : Nat)
    (out : List (List Int)) (hc : c < imageWidth.toNat)
    (hread : readAt imageData (flatIndex row c) = none) :
    fillRow imageData imageWidth row out = none := by
  unfold fillRow
  apply forLoop_none
  refine ⟨c, Nat.zero_le _, by omega, ?_⟩
  intro t
  simp only [hread]

theorem fillRows_none (imageData : List Int) (imageWidth imageHeight : Int) (r c : Nat)
    (out : List (List Int)) (hr : r < imageHeight.toNat) (hc : c < imageWidth.toNat)
    (hread : readAt imageData (flatIndex r c) = none) :
    fillRows imageData imageWidth imageHeight out = none := by
  unfold fillRows
  apply forLoop_none
  refine ⟨r, Nat.zero_le _, by omega, ?_⟩
  intro t
  exact fillRow_none imageData imageWidth r c t hc hread

theorem fillRow_spec (imageData : List Int) (imageWidth : Int) (row : Nat) (g : Nat → Int)
    (out : List (List Int)) (r0 : List Int)
    (hrow : out[row]? = some r0) (hlen : r0.length = imageWidth.toNat)
    (hread : ∀ c, c < imageWidth.toNat → readAt imageData (flatIndex row c) = some (g c)) :
    ∃ out1, fillRow imageData imageWidth row out = some out1 ∧ out1.length = out.length ∧
      (∀ k, k ≠ row → out1[k]? = out[k]?) ∧
      out1[row]? = some ((List.range imageWidth.toNat).map g) := by
  have hrowlt : row < out.length := by
    rcases List.getElem?_eq_some.mp hrow with ⟨h, _⟩
    exact h
  obtain ⟨out1, h1, h2, h3, r1, h4, h5, h6⟩ :=
    forLoop_inv
      (fun col out =>
        match readAt imageData (flatIndex row col) with
        | none => none
        | some v => writeAt out row col v)
      (fun col t => t.length = out.length ∧ (∀ k, k ≠ row → t[k]? = out[k]?) ∧
        ∃ r1, t[row]? = some r1 ∧ r1.length = r0.length ∧
          ∀ j, r1[j]? = if j < col then some (g j) else r0[j]?)
      imageWidth.toNat 0 out
      ⟨rfl, fun _ _ => rfl, r0, hrow, rfl, fun j => by simp⟩
      (by
        intro i t _ hi ⟨q1, q2, r1, q3, q4, q5⟩
        refine ⟨t.set row (r1.set i (g i)), ?_, ?_, ?_, r1.set i (g i), ?_, ?_, ?_⟩
        · simp only [hread i (by omega)]
          exact writeAt_eq_some t row i (g i) r1 q3 (by omega)
        · rw [List.length_set, q1]
        · intro k hk
          rw [List.getElem?_set_ne (Ne.symm hk), q2 k hk]
        · exact List.getElem?_set_self (by omega)
        · rw [List.length_set, q4]
        · intro j
          by_cases hj : j = i
          · subst hj
            rw [if_pos (by omega)]
            exact List.getElem?_set_self (by omega)
          · rw [List.getElem?_set_ne (Ne.symm hj), q5 j]
            by_cases hlt : j < i
            · rw [if_pos hlt, if_pos (by omega)]
            · rw [if_neg hlt, if_neg (by omega)])
  refine ⟨out1, h1, h2, h3, ?_⟩
  rw [h4]
  congr 1
  apply List.ext_getElem?
  intro j
  rw [h6 j, List.getElem?_map]
  by_cases hj : j < imageWidth.toNat
  · rw [if_pos (by omega), List.getElem?_range hj]
    rfl
  · rw [if_neg (by omega), List.getElem?_eq_none (by omega),
      List.getElem?_eq_none (by rw [List.length_range]; omega)]
    rfl

theorem fillRows_spec (imageData : List Int) (imageWidth imageHeight : Int)
    (g : Nat → Nat → Int) (out : List (List Int))
    (hlen : out.length = imageHeight.toNat)
    (hrows : ∀ k, k < imageHeight.toNat → ∃ r0, out[k]? = some r0 ∧ r0.length = imageWidth.toNat)
    (hread : ∀ r c, r < imageHeight.toNat → c < imageWidth.toNat →
      readAt imageData (flatIndex r c) = some (g r c)) :
    fillRows imageData imageWidth imageHeight out =
      some ((List.range imageHeight.toNat).map fun r => (List.range imageWidth.toNat).map (g r)) := by
  obtain ⟨out1, h1, h2, h3, h4⟩ :=
    forLoop_inv (fun row out => fillRow imageData imageWidth row out)
      (fun row t => t.length = out.length ∧
        (∀ k, k < row → t[k]? = some ((List.range imageWidth.toNat).map (g k))) ∧
        (∀ k, row ≤ k → t[k]? = out[k]?))
      imageHeight.toNat 0 out
      ⟨rfl, fun k hk => by omega, fun _ _ => rfl⟩
      (by
        intro i t _ hi ⟨q1, q2, q3⟩
        obtain ⟨r0, hr0, hr0len⟩ := hrows i (by omega)
        obtain ⟨t1, p1, p2, p3, p4⟩ :=
          fillRow_spec imageData imageWidth i (g i) t r0 (by rw [q3 i (le_refl _)]; exact hr0)
            hr0len (fun c hc => hread i c (by omega) hc)
        refine ⟨t1, p1, by rw [p2, q1], ?_, ?_⟩
        · intro k hk
          by_cases hki : k = i
          · subst hki
            exact p4
          · rw [p3 k hki]
            exact q2 k (by omega)
        · intro k hk
          rw [p3 k (by omega)]
          exact q3 k (by omega))
  unfold fillRows
  rw [h1]
  congr 1
  apply List.ext_getElem?
  intro k
  by_cases hk : k < imageHeight.toNat
  · rw [h3 k (by omega), List.getElem?_map, List.getElem?_range hk]
    rfl
  · rw [List.getElem?_eq_none (by rw [h2, hlen]; omega),
      List.getElem?_eq_none (by rw [List.length_map, List.length_range]; omega)]

/-- Closed form of `reshapeImageData` when every read `imageData[row * col]`
is inside the array. -/
theorem reshapeImageData_spec (imageData : List Int) (W H : Nat) (g : Nat → Nat → Int)
    (hread : ∀ r c, r < H → c < W → readAt imageData (flatIndex r c) = some (g r c)) :
    reshapeImageData imageData W H =
      some ((List.range H).map fun r => (List.range W).map (g r)) := by
  have halloc : allocRows (W : Int) (H : Int) =
      some (List.replicate H (List.replicate W 0)) := by
    have : ¬ ((0 : Int) < H ∧ (W : Int) < 0) := by omega
    simp [allocRows, this]
  have h := fillRows_spec imageData (W : Int) (H : Int) g
    (List.replicate H (List.replicate W 0)) (by simp)
    (fun k hk => ⟨List.replicate W 0, by
      rw [List.getElem?_replicate, if_pos (by simpa using hk)], by simp⟩)
    (fun r c hr hc => hread r c (by simpa using hr) (by simpa using hc))
  unfold reshapeImageData
  rw [halloc]
  simp only [Int.toNat_natCast] at h
  exact h

/-- When some read `imageData[row * col]` falls outside the array, the call has
no defined result. -/
theorem reshapeImageData_none (imageData : List Int) (W H : Nat) (r c : Nat)
    (hr : r < H) (hc : c < W) (hread : readAt imageData (flatIndex r c) = none) :
    reshapeImageData imageData W H = none := by
  unfold reshapeImageData
  cases allocRows (W : Int) (H : Int) with
  | none => rfl
  | some out =>
    exact fillRows_none imageData W H r c out (by simpa using hr) (by simpa using hc) hread

/-! ## Arithmetic of `int` products -/

theorem wrapInt_eq_self (x : Int) (h1 : INT_MIN ≤ x) (h2 : x ≤ INT_MAX) : wrapInt x = x := by
  unfold wrapInt
  unfold INT_MIN at h1
  unfold INT_MAX at h2
  omega

theorem wrapInt_le_max (x : Int) : wrapInt x ≤ INT_MAX := by
  unfold wrapInt INT_MAX
  omega

theorem flatIndex_eq (r c : Nat) (h : (r : Int) * (c : Int) ≤ INT_MAX) :
    flatIndex r c = (r : Int) * (c : Int) := by
  unfold flatIndex
  apply wrapInt_eq_self _ _ h
  have : (0 : Int) ≤ (r : Int) * (c : Int) := by positivity
  unfold INT_MIN
  omega

theorem mul_pred_le (W H r c : Nat) (hr : r < H) (hc : c < W) :
    r * c ≤ (H - 1) * (W - 1) :=
  Nat.mul_le_mul (by omega) (by omega)

theorem pred_mul_pred_lt (W H : Nat) (hW : 1 ≤ W) (hH : 1 ≤ H) :
    (H - 1) * (W - 1) < W * H := by
  have h1 : (H - 1) * (W - 1) ≤ (H - 1) * W := Nat.mul_le_mul_left _ (by omega)
  have h2 : (H - 1) * W < H * W := Nat.mul_lt_mul_of_pos_right (by omega) (by omega)
  rw [Nat.mul_comm W H]
  omega

theorem readAt_natCast (buffer : List Int) (i : Nat) : readAt buffer (i : Int) = buffer[i]? := by
  unfold readAt
  rw [if_pos (by omega), Int.toNat_natCast]

/-! ## Closed forms -/

/-- For a buffer that holds `W*H` samples, `reshapeImageData` is defined as soon
as the products `row * col` fit an `int`; entry `(r, c)` of the frame is then
sample `r * c` of the buffer. -/
theorem reshapeImageData_eq (buffer : List Int) (W H : Nat) (hW : 1 ≤ W) (hH : 1 ≤ H)
    (hfit : (((H - 1) * (W - 1) : Nat) : Int) ≤ INT_MAX) (hlen : buffer.length = W * H) :
    reshapeImageData buffer W H =
      some ((List.range H).map fun r => (List.range W).map fun c => buffer.getD (r * c) 0) := by
  apply reshapeImageData_spec buffer W H (fun r c => buffer.getD (r * c) 0)
  intro r c hr hc
  have hle : r * c ≤ (H - 1) * (W - 1) := mul_pred_le W H r c hr hc
  have hlt : (H - 1) * (W - 1) < W * H := pred_mul_pred_lt W H hW hH
  have hfit2 : (r : Int) * (c : Int) ≤ INT_MAX := by
    have : ((r * c : Nat) : Int) ≤ (((H - 1) * (W - 1) : Nat) : Int) := by exact_mod_cast hle
    push_cast at this hfit ⊢
    omega
  rw [flatIndex_eq r c hfit2]
  have hcast : (r : Int) * (c : Int) = ((r * c : Nat) : Int) := by push_cast; rfl
  rw [hcast, readAt_natCast, List.getD_eq_getElem?_getD,
    List.getElem?_eq_getElem (by omega : r * c < buffer.length)]
  rfl

theorem castInt_eq_some (x : Int) (h1 : INT_MIN ≤ x) (h2 : x ≤ INT_MAX) : castInt x = some x := by
  unfold castInt
  rw [if_pos ⟨h1, h2⟩]

/-- Closed form of `getAcquiredData` for a geometry whose sample count fits an `int`. -/
theorem getAcquiredData_eq (env : Env) (log : List VendorCall) (W H : Nat)
    (hW : 1 ≤ W) (hH : 1 ≤ H) (hfit : (W : Int) * (H : Int) ≤ INT_MAX) :
    getAcquiredData env log [(W : Int), (H : Int)] =
      (some (PyRet.dict
        [("data", PyVal.array ((List.range H).map fun r => (List.range W).map fun c =>
            (env.outInt log ⟨VendorFn.GetAcquiredData, [CVal.int ((W : Int) * (H : Int))]⟩
              (r * c)).getD (env.indeterminate log (r * c)))),
         ("status", PyVal.int
            (env.status log ⟨VendorFn.GetAcquiredData, [CVal.int ((W : Int) * (H : Int))]⟩))]),
       log ++ [⟨VendorFn.GetAcquiredData, [CVal.int ((W : Int) * (H : Int))]⟩]) := by
  have hmax : INT_MAX = 2147483647 := rfl
  have hmin : INT_MIN = -2147483648 := rfl
  have hWH : ((W * H : Nat) : Int) = (W : Int) * (H : Int) := by push_cast; rfl
  have hWle : W ≤ W * H := Nat.le_mul_of_pos_right W (by omega)
  have hHle : H ≤ W * H := Nat.le_mul_of_pos_left H (by omega)
  have hWi : (W : Int) ≤ INT_MAX := by
    have : ((W : Nat) : Int) ≤ ((W * H : Nat) : Int) := by exact_mod_cast hWle
    omega
  have hHi : (H : Int) ≤ INT_MAX := by
    have : ((H : Nat) : Int) ≤ ((W * H : Nat) : Int) := by exact_mod_cast hHle
    omega
  have hcW : castInt (W : Int) = some (W : Int) := castInt_eq_some _ (by omega) hWi
  have hcH : castInt (H : Int) = some (H : Int) := castInt_eq_some _ (by omega) hHi
  have hn : wrapInt ((W : Int) * (H : Int)) = (W : Int) * (H : Int) :=
    wrapInt_eq_self _ (by rw [← hWH]; omega) hfit
  have hnat : ((W : Int) * (H : Int)).toNat = W * H := by
    rw [← hWH, Int.toNat_natCast]
  have hlt : (H - 1) * (W - 1) < W * H := pred_mul_pred_lt W H hW hH
  have hfit2 : (((H - 1) * (W - 1) : Nat) : Int) ≤ INT_MAX := by
    have : (((H - 1) * (W - 1) : Nat) : Int) ≤ ((W * H : Nat) : Int) := by
      exact_mod_cast (Nat.le_of_lt hlt)
    omega
  have hresh := reshapeImageData_eq
    (readoutBuffer env log ⟨VendorFn.GetAcquiredData, [CVal.int ((W : Int) * (H : Int))]⟩ (W * H))
    W H hW hH hfit2 (by simp [readoutBuffer])
  have hcell : ∀ r c, r < H → c < W →
      (readoutBuffer env log ⟨VendorFn.GetAcquiredData, [CVal.int ((W : Int) * (H : Int))]⟩
        (W * H)).getD (r * c) 0 =
      (env.outInt log ⟨VendorFn.GetAcquiredData, [CVal.int ((W : Int) * (H : Int))]⟩
        (r * c)).getD (env.indeterminate log (r * c)) := by
    intro r c hr hc
    have hle : r * c ≤ (H - 1) * (W - 1) := mul_pred_le W H r c hr hc
    rw [List.getD_eq_getElem?_getD, readoutBuffer, List.getElem?_map,
      List.getElem?_range (by omega)]
    rfl
  have hframe : ((List.range H).map fun r => (List.range W).map fun c =>
      (readoutBuffer env log ⟨VendorFn.GetAcquiredData, [CVal.int ((W : Int) * (H : Int))]⟩
        (W * H)).getD (r * c) 0) =
      ((List.range H).map fun r => (List.range W).map fun c =>
        (env.outInt log ⟨VendorFn.GetAcquiredData, [CVal.int ((W : Int) * (H : Int))]⟩
          (r * c)).getD (env.indeterminate log (r * c))) := by
    apply List.map_congr_left
    intro r hr
    apply List.map_congr_left
    intro c hc
    exact hcell r c (List.mem_range.mp hr) (List.mem_range.mp hc)
  rw [hframe] at hresh
  unfold getAcquiredData
  have h0 : ([(W : Int), (H : Int)] : List Int)[0]? = some (W : Int) := rfl
  have h1 : ([(W : Int), (H : Int)] : List Int)[1]? = some (H : Int) := rfl
  rw [h0, h1]
  simp only [Option.some_bind, hcW, hcH]
  rw [hn, if_neg (by rw [← hWH]; omega)]
  simp only [hnat, hresh]
  rfl

/-- Whenever `getAcquiredData` hands back a value, it made exactly one vendor call
`GetAcquiredData` and the value is a dictionary with the frame under `"data"` and
the code returned by that call under `"status"`. -/
theorem getAcquiredData_some (env : Env) (log : List VendorCall) (dim : List Int) (v : PyRet)
    (h : (getAcquiredData env log dim).1 = some v) :
    ∃ n frame, getAcquiredData env log dim =
      (some (PyRet.dict [("data", PyVal.array frame),
          ("status", PyVal.int (env.status log ⟨VendorFn.GetAcquiredData, [CVal.int n]⟩))]),
        log ++ [⟨VendorFn.GetAcquiredData, [CVal.int n]⟩]) := by
  unfold getAcquiredData at h ⊢
  cases h0 : dim[0]?.bind castInt with
  | none => simp [h0] at h
  | some imageWidth =>
    cases h1 : dim[1]?.bind castInt with
    | none => simp [h0, h1] at h
    | some imageHeight =>
      simp only [h0, h1] at h ⊢
      by_cases hn : wrapInt (imageWidth * imageHeight) < 0
      · simp [hn] at h
      · simp only [hn, if_false] at h ⊢
        cases hr : reshapeImageData (readoutBuffer env log
            ⟨VendorFn.GetAcquiredData, [CVal.int (wrapInt (imageWidth * imageHeight))]⟩
            (wrapInt (imageWidth * imageHeight)).toNat) imageWidth imageHeight with
        | none => simp [hr] at h
        | some frame =>
          simp only [hr]
          exact ⟨wrapInt (imageWidth * imageHeight), frame, rfl⟩

/-- The only vendor call `getAcquiredData` can make is one `GetAcquiredData`. -/
theorem getAcquiredData_log (env : Env) (log : List VendorCall) (dim : List Int) :
    (getAcquiredData env log dim).2 = log ∨
    ∃ n, (getAcquiredData env log dim).2 = log ++ [⟨VendorFn.GetAcquiredData, [CVal.int n]⟩] := by
  unfold getAcquiredData
  cases h0 : dim[0]?.bind castInt with
  | none => exact Or.inl rfl
  | some imageWidth =>
    cases h1 : dim[1]?.bind castInt with
    | none => exact Or.inl rfl
    | some imageHeight =>
      simp only
      by_cases hn : wrapInt (imageWidth * imageHeight) < 0
      · simp only [hn, if_true]
        exact Or.inl trivial
      · simp only [hn, if_false]
        right
        refine ⟨wrapInt (imageWidth * imageHeight), ?_⟩
        cases reshapeImageData (readoutBuffer env log
            ⟨VendorFn.GetAcquiredData, [CVal.int (wrapInt (imageWidth * imageHeight))]⟩
            (wrapInt (imageWidth * imageHeight)).toNat) imageWidth imageHeight with
        | none => rfl
        | some frame => rfl

/-- Every exposed operation leaves the log unchanged or appends one vendor call to
it; that call is `StartAcquisition` exactly when the operation is `startAcquisition`. -/
theorem step_log (env : Env) (log : List VendorCall) (op : Op) :
    ((step env log op).2 = log ∧ op ≠ Op.startAcquisition) ∨
    ∃ call, (step env log op).2 = log ++ [call] ∧
      (call.fn = VendorFn.StartAcquisition ↔ op = Op.startAcquisition) := by
  cases op with
  | getAcquiredData dim =>
    rcases getAcquiredData_log env log dim with h | ⟨n, h⟩
    · exact Or.inl ⟨h, by simp⟩
    · exact Or.inr ⟨⟨VendorFn.GetAcquiredData, [CVal.int n]⟩, h, by simp⟩
  | setter which args =>
    right
    refine ⟨⟨which.target, args⟩, rfl, ?_⟩
    cases which <;> simp [Setter.target]
  | _ => exact Or.inr ⟨_, rfl, by simp⟩

theorem startCount_append (log : List VendorCall) (call : VendorCall) :
    startCount (log ++ [call]) =
      startCount log + (if call.fn = VendorFn.StartAcquisition then 1 else 0) := by
  unfold startCount
  rw [List.filter_append, List.length_append]
  by_cases h : call.fn = VendorFn.StartAcquisition
  · simp [h]
  · simp [h]

/-- The hardware starts in the log after a sequence of operations are those
already there plus one per `startAcquisition` of the sequence. -/
theorem startCount_run (env : Env) (ops : List Op) :
    ∀ log, startCount (run env log ops).2 = startCount log + ops.count Op.startAcquisition := by
  induction ops with
  | nil => intro log; simp [run]
  | cons op rest ih =>
    intro log
    show startCount (run env (step env log op).2 rest).2 = _
    rw [ih, List.count_cons]
    rcases step_log env log op with ⟨h, hne⟩ | ⟨call, h, hiff⟩
    · rw [h]
      have : (op == Op.startAcquisition) = false := by simpa using hne
      simp [this]
    · rw [h, startCount_append]
      by_cases hop : op = Op.startAcquisition
      · have hc : call.fn = VendorFn.StartAcquisition := hiff.mpr hop
        simp [hop, hc]
        omega
      · have hc : ¬ call.fn = VendorFn.StartAcquisition := fun hc => hop (hiff.mp hc)
        have : (op == Op.startAcquisition) = false := by simpa using hop
        simp [hc, this]

/-- Either some read of `reshapeImageData` falls outside the array and the call has
no defined result, or all reads are inside and the frame holds, at `(r, c)`, the
sample read at index `row * col`. -/
theorem reshapeImageData_cases (buffer : List Int) (W H : Nat) :
    (reshapeImageData buffer W H = none ∧
      ∃ r c, r < H ∧ c < W ∧ readAt buffer (flatIndex r c) = none) ∨
    (reshapeImageData buffer W H =
        some ((List.range H).map fun r => (List.range W).map fun c =>
          (readAt buffer (flatIndex r c)).getD 0) ∧
      ∀ r c, r < H → c < W → (readAt buffer (flatIndex r c)).isSome = true) := by
  by_cases hall : ∀ r c, r < H → c < W → (readAt buffer (flatIndex r c)).isSome = true
  · right
    refine ⟨reshapeImageData_spec buffer W H _ ?_, hall⟩
    intro r c hr hc
    have := hall r c hr hc
    cases hread : readAt buffer (flatIndex r c) with
    | none => rw [hread] at this; cases this
    | some v => rfl
  · left
    push_neg at hall
    obtain ⟨r, c, hr, hc, hne⟩ := hall
    have hread : readAt buffer (flatIndex r c) = none := by
      cases hread : readAt buffer (flatIndex r c) with
      | none => rfl
      | some v => rw [hread] at hne; exact absurd rfl hne
    exact ⟨reshapeImageData_none buffer W H r c hr hc hread, r, c, hr, hc, hread⟩

theorem pred_mul_pred_add (W H : Nat) (hW : 1 ≤ W) (hH : 1 ≤ H) :
    (H - 1) * (W - 1) + W + H = W * H + 1 := by
  obtain ⟨a, rfl⟩ : ∃ a, W = a + 1 := ⟨W - 1, by omega⟩
  obtain ⟨b, rfl⟩ : ∃ b, H = b + 1 := ⟨H - 1, by omega⟩
  simp only [Nat.add_sub_cancel]
  ring

/-- No read of `reshapeImageData` addresses the last sample, index `W*H - 1`, of a
buffer of `W*H >= 2` samples. -/
theorem flatIndex_ne_last (W H r c : Nat) (hW : 1 ≤ W) (hH : 1 ≤ H) (hWH : 2 ≤ W * H)
    (hr : r < H) (hc : c < W) : flatIndex r c ≠ ((W * H : Nat) : Int) - 1 := by
  have hle : r * c ≤ (H - 1) * (W - 1) := mul_pred_le W H r c hr hc
  have hadd := pred_mul_pred_add W H hW hH
  have hsum : 3 ≤ W + H := by
    by_contra hcon
    have hW1 : W = 1 := by omega
    have hH1 : H = 1 := by omega
    subst hW1 hH1
    omega
  have hlt : r * c + 1 < W * H := by omega
  have hmaxv : INT_MAX = 2147483647 := rfl
  by_cases hfit : (r : Int) * (c : Int) ≤ INT_MAX
  · rw [flatIndex_eq r c hfit]
    have : ((r * c + 1 : Nat) : Int) < ((W * H : Nat) : Int) := by exact_mod_cast hlt
    push_cast at this ⊢
    omega
  · have h1 : flatIndex r c ≤ INT_MAX := wrapInt_le_max _
    have : ((r * c + 1 : Nat) : Int) < ((W * H : Nat) : Int) := by exact_mod_cast hlt
    push_cast at this ⊢
    omega

/-- Whenever the products `row * col` fit an `int` (`(H-1)*(W-1) <= 2147483647`),
`reshapeImageData` on a buffer of exactly `W*H` samples reads inside the buffer,
writes inside the frame and returns a frame of `H` rows of `W` entries. -/
theorem reshapeImageData_in_bounds (W H : Int) (hW : 1 ≤ W) (hH : 1 ≤ H)
    (hfit : (H - 1) * (W - 1) ≤ INT_MAX) (buffer : List Int)
    (hlen : (buffer.length : Int) = W * H) :
    (∀ row col : Nat, (row : Int) < H → (col : Int) < W →
      0 ≤ flatIndex row col ∧ flatIndex row col ≤ (H - 1) * (W - 1) ∧
      (H - 1) * (W - 1) < W * H ∧ (readAt buffer (flatIndex row col)).isSome = true) ∧
    ∃ frame, reshapeImageData buffer W H = some frame ∧ (frame.length : Int) = H ∧
      ∀ row ∈ frame, (row.length : Int) = W := by
  lift W to ℕ using (by omega) with w
  lift H to ℕ using (by omega) with h
  have hw : 1 ≤ w := by exact_mod_cast hW
  have hh : 1 ≤ h := by exact_mod_cast hH
  have hcast : (w : Int) * (h : Int) = ((w * h : Nat) : Int) := by push_cast; rfl
  have hpred : ((h : Int) - 1) * ((w : Int) - 1) = (((h - 1) * (w - 1) : Nat) : Int) := by
    push_cast [Nat.cast_sub hw, Nat.cast_sub hh]
    rfl
  have hblen : buffer.length = w * h := by
    rw [hcast] at hlen
    exact_mod_cast hlen
  have hlt : (h - 1) * (w - 1) < w * h := pred_mul_pred_lt w h hw hh
  rw [hpred] at hfit
  refine ⟨fun row col hr hc => ?_, ?_⟩
  · have hr2 : row < h := by exact_mod_cast hr
    have hc2 : col < w := by exact_mod_cast hc
    have hle : row * col ≤ (h - 1) * (w - 1) := mul_pred_le w h row col hr2 hc2
    have hle2 : ((row * col : Nat) : Int) ≤ (((h - 1) * (w - 1) : Nat) : Int) := by
      exact_mod_cast hle
    have hsome : buffer[row * col]? = some (buffer.getD (row * col) 0) := by
      rw [List.getD_eq_getElem?_getD,
        List.getElem?_eq_getElem (by omega : row * col < buffer.length)]
      rfl
    have hprod : (row : Int) * (col : Int) ≤ INT_MAX := by
      push_cast at hle2
      omega
    have hidx : flatIndex row col = ((row * col : Nat) : Int) := by
      rw [flatIndex_eq row col hprod]
      push_cast
      rfl
    rw [hidx, readAt_natCast, hsome, hpred, hcast]
    exact ⟨Int.natCast_nonneg _, hle2, by exact_mod_cast hlt, rfl⟩
  · refine ⟨_, reshapeImageData_eq buffer w h hw hh hfit hblen, by simp, ?_⟩
    intro row hrow
    simp only [List.mem_map, List.mem_range] at hrow
    obtain ⟨r, _, rfl⟩ := hrow
    simp


/-! ## The claims -/

/-- C1 (defect in the code): the frame is not the row-major one. On the buffer
`[10, 20]` with width 2 and height 1, `reshapeImageData` returns `[[10, 10]]`:
entry `(0, 1)` is read from index `0 * 1 = 0`, whereas the row-major mapping
`frame[r][c] = buffer[r*W + c]` gives `[[10, 20]]`. -/
theorem C1_reshape_differs_from_row_major :
    reshapeImageData [10, 20] 2 1 = some [[10, 10]] ∧
      rowMajorFrame [10, 20] 2 1 = [[10, 20]] := by
  decide

/-- C2 (as stated, refuted): for width 65536 and height 65536 the `int` product
`imageWidth * imageHeight` is 0, not `W*H`: the readout is requested with length 0
and no frame is produced. -/
theorem C2_counterexample :
    getAcquiredData (quietEnv 20002 0) [] [65536, 65536] =
        (none, [⟨VendorFn.GetAcquiredData, [CVal.int 0]⟩]) ∧
      (65536 : Int) * 65536 ≠ 0 := by
  decide

/-- C2 (amended): for every width `W >= 1` and height `H >= 1` whose product fits a
C `int` (`W*H <= 2147483647`), `getAcquiredData((W, H))` requests a readout of
length exactly `W*H` from the vendor call `GetAcquiredData` and returns a frame with
exactly `H` rows of exactly `W` entries each, `W*H` samples in all; the tuple is
read as (width, height), the order in which `getDetector` builds its
`"dimensions"` tuple (first output slot = `imageWidth`, second = `imageHeight`). -/
theorem C2_frame_shape (env : Env) (log : List VendorCall) (W H : Int)
    (hW : 1 ≤ W) (hH : 1 ≤ H) (hfit : W * H ≤ INT_MAX) :
    (∃ frame status, getAcquiredData env log [W, H] =
        (some (PyRet.dict [("data", PyVal.array frame), ("status", PyVal.int status)]),
          log ++ [⟨VendorFn.GetAcquiredData, [CVal.int (W * H)]⟩]) ∧
        (frame.length : Int) = H ∧ (∀ row ∈ frame, (row.length : Int) = W) ∧
        (((frame.map List.length).sum : Nat) : Int) = W * H) ∧
    (getDetector env log).1 = some (PyRet.dict
      [("dimensions", PyVal.tuple
          [(env.outInt log ⟨VendorFn.GetDetector, []⟩ 0).getD (-1),
           (env.outInt log ⟨VendorFn.GetDetector, []⟩ 1).getD (-1)]),
       ("status", PyVal.int (env.status log ⟨VendorFn.GetDetector, []⟩))]) := by
  lift W to ℕ using (by omega) with w
  lift H to ℕ using (by omega) with h
  refine ⟨⟨_, _, getAcquiredData_eq env log w h (by omega) (by omega) hfit, ?_, ?_, ?_⟩, rfl⟩
  · simp
  · intro row hrow
    simp only [List.mem_map, List.mem_range] at hrow
    obtain ⟨r, _, rfl⟩ := hrow
    simp
  · simp [List.map_map, Function.comp_def]
    ring

/-- Witness of C2 on a 3 x 2 geometry. -/
theorem C2_frame_shape_witness :
    ∃ frame status, getAcquiredData (quietEnv 20002 0) [] [3, 2] =
        (some (PyRet.dict [("data", PyVal.array frame), ("status", PyVal.int status)]),
          [] ++ [⟨VendorFn.GetAcquiredData, [CVal.int (3 * 2)]⟩]) ∧
        (frame.length : Int) = 2 ∧ (∀ row ∈ frame, (row.length : Int) = 3) ∧
        (((frame.map List.length).sum : Nat) : Int) = 3 * 2 :=
  (C2_frame_shape (quietEnv 20002 0) [] 3 2 (by decide) (by decide) (by decide)).1

/-- C3 (as stated, refuted): for the tuple `(-65536, 65536)` the binding
`getAcquiredData` makes the vendor call `GetAcquiredData` (with length 0, the `int`
product of the two entries), which returns the code 20002, and then raises while
building the frame (a row vector of negative size): nothing is returned to the
caller and the status code is lost. Besides, a `"status"` entry is an `int`: a
code above 2147483647 cannot be held by `int status`, the value 4294967295
converted to `int` being -1. -/
theorem C3_counterexample :
    getAcquiredData (quietEnv 20002 0) [] [-65536, 65536] =
        (none, [⟨VendorFn.GetAcquiredData, [CVal.int 0]⟩]) ∧
      wrapInt 4294967295 = -1 := by
  decide

/-- C3 (amended): whatever status code a binding holds in its `int` after the vendor
call (`env.status` is arbitrary, unrecognised codes included),
`getAcquisitionTimings`, `getDetector`, `getStatusTEC` and `getRangeTEC` return a
dictionary whose `"status"` entry is exactly that integer and `getStatus` one whose
`"funcstatus"` entry is exactly that integer; `getAcquiredData` does so for every
geometry `W, H >= 1` with `W*H <= 2147483647`, and, for any argument, whenever it
returns a dictionary at all the `"status"` entry is the code of the vendor call it
made. -/
theorem C3_status_code_preserved (env : Env) (log : List VendorCall) (W H : Int)
    (hW : 1 ≤ W) (hH : 1 ≤ H) (hfit : W * H ≤ INT_MAX) :
    (∃ d, (getAcquisitionTimings env log).1 = some (PyRet.dict d) ∧
      d.getItem "status" =
        some (PyVal.int (env.status log ⟨VendorFn.GetAcquisitionTimings, []⟩))) ∧
    (∃ d, (getStatus env log).1 = some (PyRet.dict d) ∧
      d.getItem "funcstatus" = some (PyVal.int (env.status log ⟨VendorFn.GetStatus, []⟩))) ∧
    (∃ d, (getDetector env log).1 = some (PyRet.dict d) ∧
      d.getItem "status" = some (PyVal.int (env.status log ⟨VendorFn.GetDetector, []⟩))) ∧
    (∃ d, (getStatusTEC env log).1 = some (PyRet.dict d) ∧
      d.getItem "status" = some (PyVal.int (env.status log ⟨VendorFn.GetTemperatureF, []⟩))) ∧
    (∃ d, (getRangeTEC env log).1 = some (PyRet.dict d) ∧
      d.getItem "status" =
        some (PyVal.int (env.status log ⟨VendorFn.GetTemperatureRange, []⟩))) ∧
    (∃ d, (getAcquiredData env log [W, H]).1 = some (PyRet.dict d) ∧
      d.getItem "status" =
        some (PyVal.int (env.status log ⟨VendorFn.GetAcquiredData, [CVal.int (W * H)]⟩))) ∧
    (∀ dim d, (getAcquiredData env log dim).1 = some (PyRet.dict d) →
      ∃ n, (getAcquiredData env log dim).2 = log ++ [⟨VendorFn.GetAcquiredData, [CVal.int n]⟩] ∧
        d.getItem "status" =
          some (PyVal.int (env.status log ⟨VendorFn.GetAcquiredData, [CVal.int n]⟩))) := by
  refine ⟨⟨_, rfl, rfl⟩, ⟨_, rfl, rfl⟩, ⟨_, rfl, rfl⟩, ⟨_, rfl, rfl⟩, ⟨_, rfl, rfl⟩, ?_, ?_⟩
  · lift W to ℕ using (by omega) with w
    lift H to ℕ using (by omega) with h
    rw [getAcquiredData_eq env log w h (by omega) (by omega) hfit]
    exact ⟨_, rfl, rfl⟩
  · intro dim d hd
    obtain ⟨n, frame, hres⟩ := getAcquiredData_some env log dim _ hd
    rw [hres] at hd ⊢
    cases hd
    exact ⟨n, rfl, rfl⟩

/-- Witness of C3: an SDK answering the unrecognised code 12345 on a 2 x 1 geometry. -/
theorem C3_status_code_preserved_witness :
    ∃ d, (getAcquiredData (quietEnv 12345 0) [] [2, 1]).1 = some (PyRet.dict d) ∧
      d.getItem "status" = some (PyVal.int 12345) :=
  (C3_status_code_preserved (quietEnv 12345 0) [] 2 1
    (by decide) (by decide) (by decide)).2.2.2.2.2.1

/-- C4 (as stated, refuted): the frame is present with a failure code as well. On a
2 x 1 geometry the result carries a `"data"` frame both when `GetAcquiredData`
returns 20013 and when it returns 20002; hence no integer can play the part of a
success code for which "data present iff status is the success code" holds. -/
theorem C4_counterexample :
    hasData (getAcquiredData (quietEnv 20013 0) [] [2, 1]).1 = true ∧
    hasData (getAcquiredData (quietEnv 20002 0) [] [2, 1]).1 = true ∧
    ¬ ∃ success : Int, ∀ code : Int,
      (hasData (getAcquiredData (quietEnv code 0) [] [2, 1]).1 = true ↔ code = success) := by
  refine ⟨by decide, by decide, ?_⟩
  rintro ⟨success, h⟩
  have h1 := (h (success + 1)).mp (by
    show hasData (getAcquiredData (quietEnv (success + 1) 0) []
      [((2 : Nat) : Int), ((1 : Nat) : Int)]).1 = true
    rw [getAcquiredData_eq (quietEnv (success + 1) 0) [] 2 1 (by decide) (by decide)
      (by decide)]
    rfl)
  omega

/-- C4 (amended): the result of `getAcquiredData` carries a `"data"` frame for every
status code the vendor call `GetAcquiredData` returns, success or failure alike,
next to that code under `"status"` (for every geometry `W, H >= 1` with
`W*H <= 2147483647`). -/
theorem C4_data_present_for_every_status (env : Env) (log : List VendorCall) (W H : Int)
    (hW : 1 ≤ W) (hH : 1 ≤ H) (hfit : W * H ≤ INT_MAX) :
    hasData (getAcquiredData env log [W, H]).1 = true ∧
    ∃ frame, (getAcquiredData env log [W, H]).1 =
      some (PyRet.dict [("data", PyVal.array frame),
        ("status", PyVal.int
          (env.status log ⟨VendorFn.GetAcquiredData, [CVal.int (W * H)]⟩))]) := by
  lift W to ℕ using (by omega) with w
  lift H to ℕ using (by omega) with h
  rw [getAcquiredData_eq env log w h (by omega) (by omega) hfit]
  exact ⟨rfl, _, rfl⟩

/-- Witness of C4: a failure code (20013) on a 2 x 1 geometry. -/
theorem C4_data_present_for_every_status_witness :
    hasData (getAcquiredData (quietEnv 20013 0) [] [2, 1]).1 = true :=
  (C4_data_present_for_every_status (quietEnv 20013 0) [] 2 1
    (by decide) (by decide) (by decide)).1

/-- C5 (as stated, refuted): two calls of `startAcquisition` in a row, in a fresh
session (never armed), both reach the hardware and both return the vendor's
status: the log holds two `StartAcquisition` with no readout or abort between. -/
theorem C5_counterexample :
    run (quietEnv 20002 0) [] [Op.startAcquisition, Op.startAcquisition] =
      ([some (PyRet.int 20002), some (PyRet.int 20002)],
        [⟨VendorFn.StartAcquisition, []⟩, ⟨VendorFn.StartAcquisition, []⟩]) ∧
    noDoubleStart false
      (run (quietEnv 20002 0) [] [Op.startAcquisition, Op.startAcquisition]).2 = false := by
  decide

/-- C5 (amended): the module keeps no session state. Every call of
`startAcquisition` invokes the vendor call `StartAcquisition` exactly once,
whatever calls preceded it, and returns the vendor's status code unchanged; no
other exposed operation invokes it. So after any sequence of calls the number of
hardware starts equals the number of `startAcquisition` calls. -/
theorem C5_start_always_forwarded (env : Env) (log : List VendorCall) (ops : List Op) :
    startAcquisition env log =
      (some (PyRet.int (env.status log ⟨VendorFn.StartAcquisition, []⟩)),
        log ++ [⟨VendorFn.StartAcquisition, []⟩]) ∧
    startCount (run env log ops).2 = startCount log + ops.count Op.startAcquisition :=
  ⟨rfl, startCount_run env ops log⟩

/-- C6 (as stated, refuted): with a cooler whose reported range is `[-100, 20]`,
`setTargetTEC(21)` is not rejected: the value 21 is forwarded to the vendor call
`SetTemperature` and the vendor's status is returned. -/
theorem C6_counterexample :
    run tecEnv [] [Op.getRangeTEC, Op.setTargetTEC 21] =
      ([some (PyRet.dict [("min", PyVal.int (-100)), ("max", PyVal.int 20),
          ("status", PyVal.int 20002)]),
        some (PyRet.int 20002)],
       [⟨VendorFn.GetTemperatureRange, []⟩, ⟨VendorFn.SetTemperature, [CVal.int 21]⟩]) := by
  decide

/-- C6 (amended): `setTargetTEC` performs no range check. For every `int` value `t`,
inside or outside the range reported by `getRangeTEC`, it makes exactly one vendor
call, `SetTemperature(t)` with `t` unchanged, and returns the status code of that
call unchanged; it does not query the temperature range, and a range query made
just before changes nothing to this. -/
theorem C6_target_always_forwarded (env : Env) (log : List VendorCall) (t : Int) :
    setTargetTEC env log t =
      (some (PyRet.int (env.status log ⟨VendorFn.SetTemperature, [CVal.int t]⟩)),
        log ++ [⟨VendorFn.SetTemperature, [CVal.int t]⟩]) ∧
    (run env log [Op.getRangeTEC, Op.setTargetTEC t]).2 =
      log ++ [⟨VendorFn.GetTemperatureRange, []⟩, ⟨VendorFn.SetTemperature, [CVal.int t]⟩] ∧
    (run env log [Op.getRangeTEC, Op.setTargetTEC t]).1.getLast? =
      some (some (PyRet.int (env.status (log ++ [⟨VendorFn.GetTemperatureRange, []⟩])
        ⟨VendorFn.SetTemperature, [CVal.int t]⟩))) := by
  refine ⟨rfl, ?_, rfl⟩
  show (log ++ [_]) ++ [_] = _
  rw [List.append_assoc]
  rfl

/-- C7 (defect in the code): the scratch buffer obtained with `new at_32[n]` is not
zero-initialised. When its uninitialised cells hold 7 and the vendor call
`GetAcquiredData` returns (here with the code 20024) without writing any sample,
the 1 x 1 frame handed back is `[[7]]`, not `[[0]]`. -/
theorem C7_uninitialised_buffer_exposed :
    (getAcquiredData (quietEnv 20024 7) [] [1, 1]).1 =
      some (PyRet.dict [("data", PyVal.array [[7]]), ("status", PyVal.int 20024)]) := by
  decide

/-- C8: the `row * col` indexing of `reshapeImageData` loses data. For every
`W >= 1` and `H >= 1` with `W*H >= 2`, no frame entry is read from the last buffer
position, index `W*H - 1`; so two buffers of `W*H` samples that agree everywhere
except possibly at that position produce identical results (identical frames
whenever the products `row * col` fit an `int`). -/
theorem C8_last_sample_never_read (W H : Int) (hW : 1 ≤ W) (hH : 1 ≤ H) (hWH : 2 ≤ W * H) :
    (∀ row col : Nat, (row : Int) < H → (col : Int) < W → flatIndex row col ≠ W * H - 1) ∧
    ∀ b1 b2 : List Int, (b1.length : Int) = W * H → b2.length = b1.length →
      (∀ i : Nat, i + 1 < b1.length → b1[i]? = b2[i]?) →
      reshapeImageData b1 W H = reshapeImageData b2 W H ∧
      ((H - 1) * (W - 1) ≤ INT_MAX → (reshapeImageData b1 W H).isSome = true) := by
  lift W to ℕ using (by omega) with w
  lift H to ℕ using (by omega) with h
  have hw : 1 ≤ w := by exact_mod_cast hW
  have hh : 1 ≤ h := by exact_mod_cast hH
  have hwh : 2 ≤ w * h := by exact_mod_cast hWH
  have hcast : (w : Int) * (h : Int) = ((w * h : Nat) : Int) := by push_cast; rfl
  have hne : ∀ row col : Nat, row < h → col < w →
      flatIndex row col ≠ ((w * h : Nat) : Int) - 1 :=
    fun row col hr hc => flatIndex_ne_last w h row col hw hh hwh hr hc
  refine ⟨fun row col hr hc => ?_, ?_⟩
  · rw [hcast]
    exact hne row col (by exact_mod_cast hr) (by exact_mod_cast hc)
  · intro b1 b2 hlen1 hlen2 hagree
    have hlen : b1.length = w * h := by
      rw [hcast] at hlen1
      exact_mod_cast hlen1
    have hread : ∀ r c, r < h → c < w →
        readAt b1 (flatIndex r c) = readAt b2 (flatIndex r c) := by
      intro r c hr hc
      have hn := hne r c hr hc
      unfold readAt
      by_cases hpos : 0 ≤ flatIndex r c
      · rw [if_pos hpos, if_pos hpos]
        have hnat : ((flatIndex r c).toNat : Int) = flatIndex r c := Int.toNat_of_nonneg hpos
        by_cases hin : (flatIndex r c).toNat + 1 < b1.length
        · exact hagree _ hin
        · have hge : b1.length ≤ (flatIndex r c).toNat := by
            have hne2 : (flatIndex r c).toNat ≠ w * h - 1 := by
              intro heq
              apply hn
              rw [← hnat, heq]
              push_cast [Nat.cast_sub (by omega : 1 ≤ w * h)]
              rfl
            omega
          rw [List.getElem?_eq_none hge, List.getElem?_eq_none (by omega)]
      · rw [if_neg hpos, if_neg hpos]
    refine ⟨?_, fun hfit => ?_⟩
    swap
    · have hpred : ((h : Int) - 1) * ((w : Int) - 1) = (((h - 1) * (w - 1) : Nat) : Int) := by
        push_cast [Nat.cast_sub hw, Nat.cast_sub hh]
        rfl
      rw [hpred] at hfit
      rw [reshapeImageData_eq b1 w h hw hh hfit hlen]
      rfl
    rcases reshapeImageData_cases b1 w h with ⟨hnone, r, c, hr, hc, hfail⟩ | ⟨hsome, _⟩
    · rw [hnone, reshapeImageData_none b2 w h r c hr hc (by rw [← hread r c hr hc]; exact hfail)]
    · have hall2 : ∀ r c, r < h → c < w →
          readAt b2 (flatIndex r c) = some ((readAt b1 (flatIndex r c)).getD 0) := by
        intro r c hr hc
        rw [← hread r c hr hc]
        rcases reshapeImageData_cases b1 w h with ⟨hnone, _⟩ | ⟨_, hall⟩
        · rw [hnone] at hsome
          cases hsome
        · have := hall r c hr hc
          cases hv : readAt b1 (flatIndex r c) with
          | none => rw [hv] at this; cases this
          | some v => rfl
      rw [hsome, reshapeImageData_spec b2 w h _ hall2]

/-- Witness of C8: width 2, height 1; the buffers `[1, 2]` and `[1, 3]` differ at the
last position only and give the same frame. -/
theorem C8_last_sample_never_read_witness :
    reshapeImageData [1, 2] 2 1 = reshapeImageData [1, 3] 2 1 ∧
      ((1 - 1) * (2 - 1) ≤ INT_MAX → (reshapeImageData [1, 2] 2 1).isSome = true) :=
  (C8_last_sample_never_read 2 1 (by decide) (by decide) (by decide)).2 [1, 2] [1, 3]
    (by decide) (by decide)
    (fun i hi => by
      have h0 : i = 0 := by
        simp only [List.length_cons, List.length_nil] at hi
        omega
      subst h0
      rfl)

/-- C9 (defect in the code): the square case does not pass the row-major check
either. For `W = H = 2` and the buffer `[0, 1, 2, 3]`, `reshapeImageData` returns
`[[0, 0], [0, 1]]` (entry `(r, c)` is read from index `r * c`), whereas the
row-major frame is `[[0, 1], [2, 3]]`. -/
theorem C9_square_case_differs_from_row_major :
    reshapeImageData [0, 1, 2, 3] 2 2 = some [[0, 0], [0, 1]] ∧
      rowMajorFrame [0, 1, 2, 3] 2 2 = [[0, 1], [2, 3]] := by
  decide

/-- C10: `reshapeImageData` never reads outside the buffer and never writes outside
the frame. For every `W >= 1` and `H >= 1` and every buffer of exactly `W*H` samples
handed over by its caller `getAcquiredData` (which allocates
`new at_32[imageWidth * imageHeight]`, so that the buffer length is the `int`
product), every index `row * col` read (`0 <= row < H`, `0 <= col < W`, row 0
included) satisfies `0 <= row*col <= (H-1)*(W-1) < W*H` and addresses an existing
sample, every write `out[row][col]` targets an existing row and column, and the
call never takes the error branch: it returns a frame of `H` rows of `W` entries. -/
theorem C10_reshape_in_bounds (W H : Int) (hW : 1 ≤ W) (hH : 1 ≤ H) (buffer : List Int)
    (halloc : (buffer.length : Int) = wrapInt (W * H))
    (hlen : (buffer.length : Int) = W * H) :
    (∀ row col : Nat, (row : Int) < H → (col : Int) < W →
      0 ≤ flatIndex row col ∧ flatIndex row col ≤ (H - 1) * (W - 1) ∧
      (H - 1) * (W - 1) < W * H ∧ (readAt buffer (flatIndex row col)).isSome = true) ∧
    ∃ frame, reshapeImageData buffer W H = some frame ∧ (frame.length : Int) = H ∧
      ∀ row ∈ frame, (row.length : Int) = W := by
  have hwrap : wrapInt (W * H) ≤ INT_MAX := wrapInt_le_max _
  have hprod : W * H ≤ INT_MAX := by
    rw [← hlen, halloc]
    exact hwrap
  have hle : (H - 1) * (W - 1) ≤ W * H := by nlinarith
  exact reshapeImageData_in_bounds W H hW hH (le_trans hle hprod) buffer hlen

/-- Witness of C10: a 3 x 2 geometry and a buffer of 6 samples. -/
theorem C10_reshape_in_bounds_witness :
    ∃ frame, reshapeImageData [0, 1, 2, 3, 4, 5] 3 2 = some frame ∧ (frame.length : Int) = 2 ∧
      ∀ row ∈ frame, (row.length : Int) = 3 :=
  (C10_reshape_in_bounds 3 2 (by decide) (by decide) [0, 1, 2, 3, 4, 5]
    (by decide) (by decide)).2

end Evora
